import Mathlib

/-!
Verification of the quiz-room coordinator of the GenAI backend
(`server.js`: HTTP route `/quiz/create` plus the socket handlers
`join_room`, `start_quiz`, `submit_answer` and the helper `startQuestion`).

The embedding is shallow: the in-memory `quizRooms` Map becomes an
association list `Registry` with JS `Map.set` semantics (replace in place,
else append); each socket handler becomes a pure function from the registry
(and, for the trace model, the whole server state) to its successor, paired
with the list of events the handler emits.  A handler that would throw a
`TypeError` at runtime (reading `.find` or `.sort` of an undefined
`room.players`) is modelled as returning `none`; events emitted before the
throw are not tracked in that case.  Countdown timers (`setInterval` with
`timeLeft` starting at 20, firing `startQuestion(roomId, index+1)` when the
count reaches zero) are modelled as explicit `Timer` records in the server
state, with `tick` events decrementing them.
-/

namespace Quiz

/-- A quiz question as stored in a room: prompt, options and the correct
answer string (grading is exact string equality). -/
structure Question where
  question : String
  options : List String
  correctAnswer : String
  deriving DecidableEq

/-- A roster entry, as pushed by the `join_room` handler:
`{ id: socket.id, username, score: 0 }`.  There is no
`answeredQuestionIndex` field in the source. -/
structure Player where
  id : String
  username : String
  score : Nat
  deriving DecidableEq

/-- A room as stored by `POST /quiz/create`; `players` is absent
(`none`) until the first `join_room` initialises it. -/
structure RoomData where
  id : String
  subject : String
  title : String
  questions : List Question
  createdAt : Nat
  players : Option (List Player)
  deriving DecidableEq

/-- The in-memory room table `quizRooms : Map<string, RoomData>`. -/
abbrev Registry := List (String × RoomData)

/-- `Map.get`: the value stored under `k`, if any. -/
def Registry.get (m : Registry) (k : String) : Option RoomData :=
  match m with
  | [] => none
  | (k', v) :: rest => if k' == k then some v else Registry.get rest k

/-- `Map.set`: replace the value under `k` in place if present, else append. -/
def Registry.set (m : Registry) (k : String) (v : RoomData) : Registry :=
  match m with
  | [] => [(k, v)]
  | (k', v') :: rest =>
      if k' == k then (k, v) :: rest else (k', v') :: Registry.set rest k v

/-- JS `title || "Quiz: " + subject`: an absent or empty (falsy) title
falls back to the default. -/
def titleOrDefault (title : Option String) (subject : String) : String :=
  match title with
  | some t => if t == "" then "Quiz: " ++ subject else t
  | none => "Quiz: " ++ subject

/-- The room object built by `POST /quiz/create`. -/
def mkRoomData (roomId subject : String) (title : Option String)
    (questions : List Question) (now : Nat) : RoomData :=
  { id := roomId, subject := subject, title := titleOrDefault title subject,
    questions := questions, createdAt := now, players := none }

/-- The `POST /quiz/create` handler after payload validation: stores the
room under the freshly generated `roomId` with `quizRooms.set(roomId, roomData)`,
unconditionally.  The generated id (`Math.random().toString(36)...`) is a
parameter since it is drawn outside the program state. -/
def createRoom (rooms : Registry) (roomId subject : String) (title : Option String)
    (questions : List Question) (now : Nat) : Registry :=
  rooms.set roomId (mkRoomData roomId subject title questions now)

/-- Events emitted by the handlers: `socket.emit("error", ...)` is scoped to
the originating connection, everything else is an `io.to(roomId).emit` room
broadcast. -/
inductive Emission where
  | errorToSocket (sockId : String) (msg : String)
  | playerJoined (roomId : String) (roster : List Player)
  | quizStarted (roomId : String)
  | newQuestion (roomId : String) (question : String) (options : List String)
      (index : Nat) (total : Nat) (timeLeft : Nat)
  | quizEnded (roomId : String) (leaderboard : List Player)
  deriving DecidableEq

/-- The `join_room` handler: unknown room emits a connection-scoped error;
otherwise the player is pushed onto the roster (initialising it if absent)
and the updated roster is broadcast. -/
def joinRoom (rooms : Registry) (sockId roomId username : String) :
    Registry × List Emission :=
  match rooms.get roomId with
  | none => (rooms, [.errorToSocket sockId "Room not found"])
  | some room =>
      let players := room.players.getD []
      let players' := players ++ [{ id := sockId, username := username, score := 0 }]
      (rooms.set roomId { room with players := some players' },
       [.playerJoined roomId players'])

/-- JS array read `room.questions[questionIndex]`: `undefined` (`none`) for a
negative or too-large index. -/
def getQ (qs : List Question) (i : Int) : Option Question :=
  if 0 ≤ i then qs[i.toNat]? else none

/-- Mutating `player.score += 1` through the reference returned by
`room.players.find(...)`: only the first entry with the matching id changes. -/
def scoreFirst (sockId : String) : List Player → List Player
  | [] => []
  | p :: rest =>
      if p.id == sockId then { p with score := p.score + 1 } :: rest
      else p :: scoreFirst sockId rest

/-- The `submit_answer` handler.  A missing room returns silently; an
undefined roster makes `room.players.find` throw (`none`); otherwise the
first roster entry with the submitter's socket id gains a point iff the
indexed question exists and its `correctAnswer` equals the submitted
answer.  No state, current-index or repeat-submission check exists. -/
def submitAnswer (rooms : Registry) (sockId roomId : String)
    (questionIndex : Int) (answer : String) : Option Registry :=
  match rooms.get roomId with
  | none => some rooms
  | some room =>
      match room.players with
      | none => none
      | some players =>
          match players.find? (fun p => p.id == sockId) with
          | none => some rooms
          | some _ =>
              match getQ room.questions questionIndex with
              | none => some rooms
              | some q =>
                  if q.correctAnswer == answer then
                    some (rooms.set roomId
                      { room with players := some (scoreFirst sockId players) })
                  else some rooms

/-- The leaderboard comparator `(a, b) => b.score - a.score`, as the
relation "a's score is at least b's". -/
def scoreGE (a b : Player) : Prop := b.score ≤ a.score

instance : DecidableRel scoreGE := fun a b => Nat.decLe b.score a.score

instance : IsTotal Player scoreGE := ⟨fun a b => Nat.le_total b.score a.score⟩

instance : IsTrans Player scoreGE := ⟨fun _ _ _ hab hbc => Nat.le_trans hbc hab⟩

/-- `room.players.sort((a, b) => b.score - a.score)`: ECMAScript sort is
stable, so this is a stable descending sort on `score`. -/
def sortDesc (players : List Player) : List Player :=
  List.insertionSort scoreGE players

/-- A live `setInterval` countdown: 20 ticks, then
`startQuestion(roomId, nextIndex)`. -/
structure Timer where
  roomId : String
  nextIndex : Nat
  timeLeft : Nat
  deriving DecidableEq

/-- One invocation of `startQuestion(roomId, index)`: past the last question
it sorts the roster in place and broadcasts `quiz_ended` (throwing if the
room is missing or the roster undefined); otherwise it broadcasts the
question and schedules the countdown for `index + 1`. -/
def startQuestion (rooms : Registry) (roomId : String) (index : Nat) :
    Option (Registry × Option Timer × List Emission) :=
  match rooms.get roomId with
  | none => none
  | some room =>
      if h : index < room.questions.length then
        let q := room.questions.get ⟨index, h⟩
        some (rooms, some { roomId := roomId, nextIndex := index + 1, timeLeft := 20 },
          [.newQuestion roomId q.question q.options index room.questions.length 20])
      else
        match room.players with
        | none => none
        | some players =>
            let lb := sortDesc players
            some (rooms.set roomId { room with players := some lb }, none,
              [.quizEnded roomId lb])

/-- The whole socket server: room table, live countdowns, and the log of
every event emitted so far. -/
structure ServerState where
  rooms : Registry
  timers : List Timer
  emitted : List Emission
  deriving DecidableEq

/-- Inbound socket messages. -/
inductive Msg where
  | joinRoom (sockId roomId username : String)
  | startQuiz (roomId : String)
  | submitAnswer (sockId roomId : String) (questionIndex : Int) (answer : String)
  deriving DecidableEq

/-- One schedulable occurrence: an inbound message, or one second elapsing
on the `i`-th live countdown. -/
inductive Event where
  | msg (m : Msg)
  | tick (i : Nat)
  deriving DecidableEq

/-- One serialized step of the server.  `none` models the handler throwing
a `TypeError`. -/
def step (s : ServerState) (e : Event) : Option ServerState :=
  match e with
  | .msg (.joinRoom sockId roomId username) =>
      some { s with rooms := (joinRoom s.rooms sockId roomId username).1,
                    emitted := s.emitted ++ (joinRoom s.rooms sockId roomId username).2 }
  | .msg (.startQuiz roomId) =>
      match s.rooms.get roomId with
      | none => some s
      | some _ =>
          match startQuestion s.rooms roomId 0 with
          | none => none
          | some (rooms', t?, ems) =>
              some { rooms := rooms', timers := s.timers ++ t?.toList,
                     emitted := s.emitted ++ [.quizStarted roomId] ++ ems }
  | .msg (.submitAnswer sockId roomId qi answer) =>
      (submitAnswer s.rooms sockId roomId qi answer).map fun r => { s with rooms := r }
  | .tick i =>
      match s.timers[i]? with
      | none => some s
      | some t =>
          if t.timeLeft ≤ 1 then
            match startQuestion s.rooms t.roomId t.nextIndex with
            | none => none
            | some (rooms', t?, ems) =>
                some { rooms := rooms', timers := s.timers.eraseIdx i ++ t?.toList,
                       emitted := s.emitted ++ ems }
          else
            some { s with timers := s.timers.set i { t with timeLeft := t.timeLeft - 1 } }

/-- Run a sequence of events from a state, stopping at the first throw. -/
def run (s : ServerState) : List Event → Option ServerState
  | [] => some s
  | e :: rest =>
      match step s e with
      | none => none
      | some s' => run s' rest

/-- A freshly booted server over a given room table: no timers, no events. -/
def initState (rooms : Registry) : ServerState :=
  { rooms := rooms, timers := [], emitted := [] }

/-- Observable: the score of the first roster entry with the given socket id. -/
def firstScore (rooms : Registry) (roomId sockId : String) : Option Nat :=
  match rooms.get roomId with
  | none => none
  | some room =>
      match room.players with
      | none => none
      | some players =>
          (players.find? (fun p => p.id == sockId)).map (fun p => p.score)

/-- Observable: total of all scores on a room's roster. -/
def scoreSum (players : List Player) : Nat :=
  (players.map (fun p => p.score)).sum

/-- Observable: total of all scores of a room (0 if the room is missing or
the roster uninitialised). -/
def roomScoreSum (rooms : Registry) (roomId : String) : Nat :=
  match rooms.get roomId with
  | none => 0
  | some room => scoreSum (room.players.getD [])

/-- Observable: the question indices broadcast to a room, in order. -/
def newQuestionIndices (ems : List Emission) (roomId : String) : List Nat :=
  ems.filterMap fun e =>
    match e with
    | .newQuestion rid _ _ index _ _ => if rid == roomId then some index else none
    | _ => none

/-- Observable: how many `quiz_ended` broadcasts a room has received. -/
def quizEndedCount (ems : List Emission) (roomId : String) : Nat :=
  (ems.filter fun e =>
    match e with
    | .quizEnded rid _ => rid == roomId
    | _ => false).length

/-- Sample question whose correct answer is the option string "A". -/
def qA : Question := { question := "Q1", options := ["A", "B"], correctAnswer := "A" }

/-- Sample question whose correct answer is the option string "B". -/
def qB : Question := { question := "Q2", options := ["A", "B"], correctAnswer := "B" }

/-- Sample roster entry for connection "s1". -/
def p1 : Player := { id := "s1", username := "alice", score := 0 }

/-- Sample room with a single question and connection "s1" already joined. -/
def roomOneQ : RoomData :=
  { id := "R", subject := "math", title := "T", questions := [qA], createdAt := 0,
    players := some [p1] }

/-- Sample registry holding `roomOneQ` under "R". -/
def regOneQ : Registry := [("R", roomOneQ)]

/-- Sample room with two questions and no roster yet. -/
def roomTwoQ : RoomData :=
  { id := "R", subject := "math", title := "T", questions := [qA, qB], createdAt := 0,
    players := none }

/-- Sample registry holding `roomTwoQ` under "R". -/
def regTwoQ : Registry := [("R", roomTwoQ)]

/-- Sample room with an empty question list and no roster yet. -/
def roomNoQ : RoomData :=
  { id := "R", subject := "math", title := "T", questions := [], createdAt := 0,
    players := none }

/-- Sample registry holding `roomNoQ` under "R". -/
def regNoQ : Registry := [("R", roomNoQ)]

/-- Sample registry: the two-question room with connection "s1" joined. -/
def regTwoQJoined : Registry := [("R", { roomTwoQ with players := some [p1] })]

/-- Sample registry: the empty-question room with connection "s1" joined. -/
def regNoQJoined : Registry := [("R", { roomNoQ with players := some [p1] })]

/-- Sample roster entry: "alice" on connection "s1" with one point. -/
def pAlice : Player := { id := "s1", username := "alice", score := 1 }

/-- Sample roster entry: "bob" on connection "s2" with one point. -/
def pBob : Player := { id := "s2", username := "bob", score := 1 }

/-- Sample registry: the two-question room with a tied roster
(alice joined before bob, both at one point). -/
def regTie : Registry := [("R", { roomTwoQ with players := some [pAlice, pBob] })]

/-!  Helper lemmas shared by the claim theorems. -/

/-- Reading back through `Map.set`: the written key returns the new value,
every other key is untouched. -/
theorem Registry.get_set (m : Registry) (k : String) (v : RoomData) (j : String) :
    (m.set k v).get j = if k = j then some v else m.get j := by
  induction m with
  | nil =>
      by_cases h : k = j <;> simp [Registry.set, Registry.get, h]
  | cons hd tl ih =>
      obtain ⟨k', v'⟩ := hd
      by_cases hk : k' = k
      · by_cases hj : k = j <;>
          simp [Registry.set, Registry.get, hk, hj, beq_iff_eq]
      · by_cases hj : k' = j
        · subst hj
          have hkj : ¬ k = k' := fun h => hk h.symm
          simp [Registry.set, Registry.get, hk, hkj, beq_iff_eq]
        · simp [Registry.set, Registry.get, hk, hj, beq_iff_eq, ih]

/-- Writing a key and reading it back. -/
theorem Registry.get_set_self (m : Registry) (k : String) (v : RoomData) :
    (m.set k v).get k = some v := by
  simp [Registry.get_set]

/-- Writing one key does not disturb another. -/
theorem Registry.get_set_ne (m : Registry) (k : String) (v : RoomData) (j : String)
    (h : k ≠ j) : (m.set k v).get j = m.get j := by
  simp [Registry.get_set, h]

/-- Incrementing the first matching roster entry preserves its position:
`find?` now returns the bumped entry. -/
theorem find?_scoreFirst (sockId : String) (players : List Player) (p : Player)
    (h : players.find? (fun q => q.id == sockId) = some p) :
    (scoreFirst sockId players).find? (fun q => q.id == sockId)
      = some { p with score := p.score + 1 } := by
  induction players with
  | nil => simp [List.find?] at h
  | cons hd tl ih =>
      by_cases hid : hd.id = sockId
      · rw [List.find?_cons_of_pos _ (by simp [hid])] at h
        obtain rfl := Option.some.inj h
        have hsf : scoreFirst sockId (hd :: tl)
            = { hd with score := hd.score + 1 } :: tl := by simp [scoreFirst, hid]
        rw [hsf, List.find?_cons_of_pos _ (by simp [hid])]
      · rw [List.find?_cons_of_neg _ (by simp [hid])] at h
        have hsf : scoreFirst sockId (hd :: tl) = hd :: scoreFirst sockId tl := by
          simp [scoreFirst, hid]
        rw [hsf, List.find?_cons_of_neg _ (by simp [hid])]
        exact ih h

/-- `scoreFirst` never lowers the roster's score total. -/
theorem scoreSum_scoreFirst_le (sockId : String) (players : List Player) :
    scoreSum players ≤ scoreSum (scoreFirst sockId players) := by
  induction players with
  | nil => simp [scoreFirst]
  | cons hd tl ih =>
      by_cases hid : hd.id = sockId
      · have hsf : scoreFirst sockId (hd :: tl)
            = { hd with score := hd.score + 1 } :: tl := by simp [scoreFirst, hid]
        rw [hsf]
        simp only [scoreSum, List.map_cons, List.sum_cons]
        omega
      · have hsf : scoreFirst sockId (hd :: tl) = hd :: scoreFirst sockId tl := by
          simp [scoreFirst, hid]
        rw [hsf]
        simp only [scoreSum, List.map_cons, List.sum_cons] at ih ⊢
        omega

/-- When the submitter is on the roster, `scoreFirst` adds exactly one point
to the roster total. -/
theorem scoreSum_scoreFirst_found (sockId : String) (players : List Player)
    (h : (players.find? (fun q => q.id == sockId)).isSome) :
    scoreSum (scoreFirst sockId players) = scoreSum players + 1 := by
  induction players with
  | nil => simp [List.find?] at h
  | cons hd tl ih =>
      by_cases hid : hd.id = sockId
      · have hsf : scoreFirst sockId (hd :: tl)
            = { hd with score := hd.score + 1 } :: tl := by simp [scoreFirst, hid]
        rw [hsf]
        simp only [scoreSum, List.map_cons, List.sum_cons]
        omega
      · rw [List.find?_cons_of_neg _ (by simp [hid])] at h
        have hsf : scoreFirst sockId (hd :: tl) = hd :: scoreFirst sockId tl := by
          simp [scoreFirst, hid]
        rw [hsf]
        have ih' := ih h
        simp only [scoreSum, List.map_cons, List.sum_cons] at ih' ⊢
        omega

/-- Score totals are permutation-invariant. -/
theorem scoreSum_perm (l l' : List Player) (h : l.Perm l') :
    scoreSum l = scoreSum l' := by
  unfold scoreSum
  exact (h.map (fun p => p.score)).sum_eq

/-- The leaderboard sort is a permutation of the roster. -/
theorem sortDesc_perm (l : List Player) : (sortDesc l).Perm l :=
  List.perm_insertionSort scoreGE l

/-- Sorting the roster at quiz end preserves the score total. -/
theorem scoreSum_sortDesc (l : List Player) : scoreSum (sortDesc l) = scoreSum l :=
  scoreSum_perm _ _ (sortDesc_perm l)

/-- The leaderboard sort yields a descending score sequence. -/
theorem sortDesc_sorted (l : List Player) : List.Sorted scoreGE (sortDesc l) :=
  List.sorted_insertionSort scoreGE l

/-- Inserting into a descending list touches the relative order of no score
class: the entries at any fixed score are the old ones, with the new entry in
front when it has that score. -/
theorem filter_orderedInsert (p : Player) (l : List Player) (n : Nat) :
    (List.orderedInsert scoreGE p l).filter (fun q => q.score == n)
      = if p.score = n then p :: l.filter (fun q => q.score == n)
        else l.filter (fun q => q.score == n) := by
  induction l with
  | nil => by_cases h : p.score = n <;> simp [List.orderedInsert, List.filter_cons, h]
  | cons hd tl ih =>
      by_cases hins : scoreGE p hd
      · by_cases h : p.score = n <;>
          simp [List.orderedInsert, hins, h, List.filter_cons]
      · have hgt : p.score < hd.score := by
          simpa [scoreGE, Nat.not_le] using hins
        by_cases h : p.score = n
        · have hhd : ¬ hd.score = n := by omega
          simp [List.orderedInsert, hins, List.filter_cons, hhd, ih, h]
        · by_cases hhd : hd.score = n <;>
            simp [List.orderedInsert, hins, List.filter_cons, hhd, ih, h]

/-- Stability of the leaderboard sort: within each score class, entries keep
their roster (join) order. -/
theorem sortDesc_filter (l : List Player) (n : Nat) :
    (sortDesc l).filter (fun q => q.score == n) = l.filter (fun q => q.score == n) := by
  induction l with
  | nil => simp [sortDesc, List.insertionSort]
  | cons hd tl ih =>
      have hstep : sortDesc (hd :: tl) = List.orderedInsert scoreGE hd (sortDesc tl) := rfl
      rw [hstep, filter_orderedInsert, ih]
      by_cases h : hd.score = n <;> simp [List.filter_cons, h]

/-- Roster totals after `Map.set`: the written room contributes its new
roster, the others are untouched. -/
theorem roomScoreSum_set (rooms : Registry) (k : String) (room : RoomData) (j : String) :
    roomScoreSum (rooms.set k room) j
      = if k = j then scoreSum (room.players.getD []) else roomScoreSum rooms j := by
  by_cases h : k = j <;> simp [roomScoreSum, Registry.get_set, h]

/-- C6: a `join_room` naming a roomId absent from the registry emits the
"Room not found" error to the originating connection only, broadcasts
nothing to any room, and mutates no server state (room table and timers are
untouched). -/
theorem C6_join_missing_room (s : ServerState) (sockId roomId username : String)
    (h : s.rooms.get roomId = none) :
    step s (.msg (.joinRoom sockId roomId username))
      = some { s with emitted := s.emitted ++ [.errorToSocket sockId "Room not found"] } := by
  simp [step, joinRoom, h]

/-- Witness for C6: joining the never-created room "ZZZZZZ". -/
theorem C6_join_missing_room_witness :
    step (initState regOneQ) (.msg (.joinRoom "s9" "ZZZZZZ" "zoe"))
      = some { initState regOneQ with
               emitted := (initState regOneQ).emitted
                 ++ [.errorToSocket "s9" "Room not found"] } :=
  C6_join_missing_room (initState regOneQ) "s9" "ZZZZZZ" "zoe" (by decide)

/-- C7 counterexample: with "AAAAAA" already mapped to an existing room, a
createRoom whose generated id is again "AAAAAA" stores the new room under
that id, replacing (not preserving) the existing room: no fresh id is
generated. -/
theorem C7_counterexample :
    Registry.get [("AAAAAA", roomOneQ)] "AAAAAA" = some roomOneQ ∧
    Registry.get (createRoom [("AAAAAA", roomOneQ)] "AAAAAA" "hist" none [] 5) "AAAAAA"
      = some (mkRoomData "AAAAAA" "hist" none [] 5) ∧
    mkRoomData "AAAAAA" "hist" none [] 5 ≠ roomOneQ := by decide

/-- C7 amended: createRoom stores the room under the single generated id
unconditionally: afterwards that id maps to the freshly built room whatever
the registry previously held, so a colliding id overwrites the old room
rather than triggering regeneration. -/
theorem C7_create_overwrites (rooms : Registry) (roomId subject : String)
    (title : Option String) (questions : List Question) (now : Nat) :
    Registry.get (createRoom rooms roomId subject title questions now) roomId
      = some (mkRoomData roomId subject title questions now) :=
  Registry.get_set_self rooms roomId (mkRoomData roomId subject title questions now)

/-- C9 counterexample: connection "s1" is already the sole roster entry of
room "R"; a second join_room from "s1" appends a duplicate entry rather
than being a no-op. -/
theorem C9_counterexample :
    roomOneQ.players = some [p1] ∧
    (joinRoom regOneQ "s1" "R" "alice").1.get "R"
      = some { roomOneQ with players := some [p1, p1] } := by decide

/-- C9 amended: join_room is not idempotent in the connection identity:
even when the connection id is already on the roster, the handler appends a
fresh duplicate entry with score 0 (leaving every existing entry, including
the prior one for that connection, untouched in place) and broadcasts the
extended roster. -/
theorem C9_join_appends_duplicate (rooms : Registry) (sockId roomId username : String)
    (room : RoomData) (players : List Player)
    (hroom : rooms.get roomId = some room)
    (hp : room.players = some players)
    (_halready : (players.find? (fun p => p.id == sockId)).isSome) :
    joinRoom rooms sockId roomId username
      = (rooms.set roomId
           { room with players := some (players ++ [{ id := sockId, username := username, score := 0 }]) },
         [.playerJoined roomId (players ++ [{ id := sockId, username := username, score := 0 }])]) := by
  simp [joinRoom, hroom, hp]

/-- Witness for C9: re-joining room "R" from the already-present
connection "s1". -/
theorem C9_join_appends_duplicate_witness :
    joinRoom regOneQ "s1" "R" "alice"
      = (Registry.set regOneQ "R"
           { roomOneQ with players := some ([p1] ++ [{ id := "s1", username := "alice", score := 0 }]) },
         [.playerJoined "R" ([p1] ++ [{ id := "s1", username := "alice", score := 0 }])]) :=
  C9_join_appends_duplicate regOneQ "s1" "R" "alice" roomOneQ [p1]
    (by decide) (by decide) (by decide)

/-- C10: an out-of-range questionIndex (negative or at least
questions.length) makes the question lookup come back undefined, so the
guard `question && ...` fails and submit_answer is a silent no-op: no score
changes and no error is raised (given the room exists and its roster is
initialised, so the handler does not throw). -/
theorem C10_out_of_range_noop (rooms : Registry) (sockId roomId : String)
    (qi : Int) (answer : String) (room : RoomData) (players : List Player)
    (hroom : rooms.get roomId = some room)
    (hp : room.players = some players)
    (hout : qi < 0 ∨ (room.questions.length : Int) ≤ qi) :
    submitAnswer rooms sockId roomId qi answer = some rooms := by
  have hq : getQ room.questions qi = none := by
    rcases hout with hneg | hbig
    · have h0 : ¬ (0 : Int) ≤ qi := by omega
      simp [getQ, h0]
    · have h0 : (0 : Int) ≤ qi := le_trans (by positivity) hbig
      have hlen : room.questions.length ≤ qi.toNat := by omega
      simp [getQ, h0, List.getElem?_eq_none hlen]
  simp only [submitAnswer, hroom, hp, hq]
  cases players.find? (fun p => p.id == sockId) <;> simp

/-- Witness for C10: submitting index 5 against the one-question room. -/
theorem C10_out_of_range_noop_witness :
    submitAnswer regOneQ "s1" "R" 5 "A" = some regOneQ :=
  C10_out_of_range_noop regOneQ "s1" "R" 5 "A" roomOneQ [p1]
    (by decide) (by decide) (Or.inr (by decide))

/-- C1 counterexample: player "s1" submits question 0's correct answer
twice; the first scored submission moves the score from 0 to 1, and the
second submit_answer with the same questionIndex moves it again, to 2: the
second submission did change the score. -/
theorem C1_counterexample :
    firstScore regOneQ "R" "s1" = some 0 ∧
    (submitAnswer regOneQ "s1" "R" 0 "A").bind (fun r => firstScore r "R" "s1")
      = some 1 ∧
    ((submitAnswer regOneQ "s1" "R" 0 "A").bind
        (fun r => (submitAnswer r "s1" "R" 0 "A").bind
          (fun r2 => firstScore r2 "R" "s1"))) = some 2 := by
  decide

/-- C1 amended: there is no answered-question guard, so repeat submissions
are scored independently: when a rostered player twice submits the correct
answer of the same in-range question, the first submission adds one point
and the second, identical one adds another. -/
theorem C1_resubmission_scores_again (rooms : Registry) (sockId roomId : String)
    (qi : Int) (answer : String) (room : RoomData) (players : List Player)
    (p : Player) (q : Question)
    (hroom : rooms.get roomId = some room)
    (hp : room.players = some players)
    (hfind : players.find? (fun x => x.id == sockId) = some p)
    (hq : getQ room.questions qi = some q)
    (hca : q.correctAnswer = answer) :
    ∃ rooms1 rooms2,
      submitAnswer rooms sockId roomId qi answer = some rooms1 ∧
      submitAnswer rooms1 sockId roomId qi answer = some rooms2 ∧
      firstScore rooms1 roomId sockId = some (p.score + 1) ∧
      firstScore rooms2 roomId sockId = some (p.score + 2) := by
  have h1 : submitAnswer rooms sockId roomId qi answer
      = some (rooms.set roomId { room with players := some (scoreFirst sockId players) }) := by
    simp [submitAnswer, hroom, hp, hfind, hq, hca]
  have hget1 : (rooms.set roomId { room with players := some (scoreFirst sockId players) }).get roomId
      = some { room with players := some (scoreFirst sockId players) } :=
    Registry.get_set_self rooms roomId _
  have hfind1 : (scoreFirst sockId players).find? (fun x => x.id == sockId)
      = some { p with score := p.score + 1 } :=
    find?_scoreFirst sockId players p hfind
  have h2 : submitAnswer (rooms.set roomId { room with players := some (scoreFirst sockId players) })
        sockId roomId qi answer
      = some ((rooms.set roomId { room with players := some (scoreFirst sockId players) }).set roomId
          { room with players := some (scoreFirst sockId (scoreFirst sockId players)) }) := by
    simp [submitAnswer, hget1, hfind1, hq, hca]
  have hfind2 : (scoreFirst sockId (scoreFirst sockId players)).find? (fun x => x.id == sockId)
      = some { p with score := p.score + 2 } := by
    have := find?_scoreFirst sockId (scoreFirst sockId players) _ hfind1
    simpa using this
  refine ⟨_, _, h1, h2, ?_, ?_⟩
  · simp [firstScore, hget1, hfind1]
  · simp [firstScore, Registry.get_set_self, hfind2]

/-- Witness for C1: the concrete double submission of "A" on the
one-question room. -/
theorem C1_resubmission_scores_again_witness :
    ∃ rooms1 rooms2,
      submitAnswer regOneQ "s1" "R" 0 "A" = some rooms1 ∧
      submitAnswer rooms1 "s1" "R" 0 "A" = some rooms2 ∧
      firstScore rooms1 "R" "s1" = some (p1.score + 1) ∧
      firstScore rooms2 "R" "s1" = some (p1.score + 2) :=
  C1_resubmission_scores_again regOneQ "s1" "R" 0 "A" roomOneQ [p1] p1 qA
    (by decide) (by decide) (by decide) (by decide) (by decide)

/-- C2 counterexample: in the two-question room only question 0 has been
broadcast (it is the current question), yet a submit_answer carrying
questionIndex 1 with question 1's correct answer moves the submitter's
score from 0 to 1: a submission for a non-current index changed a score. -/
theorem C2_counterexample :
    (run (initState regTwoQ)
        [.msg (.joinRoom "s1" "R" "alice"), .msg (.startQuiz "R")]).map
      (fun s => (newQuestionIndices s.emitted "R", firstScore s.rooms "R" "s1"))
      = some ([0], some 0) ∧
    (run (initState regTwoQ)
        [.msg (.joinRoom "s1" "R" "alice"), .msg (.startQuiz "R"),
         .msg (.submitAnswer "s1" "R" 1 "B")]).map
      (fun s => (newQuestionIndices s.emitted "R", firstScore s.rooms "R" "s1"))
      = some ([0], some 1) := by
  decide

/-- C2 amended: the handler never consults which question is current: for
any timers and any emission history whatsoever, a submission by a rostered
player for any in-range question index whose correct answer matches adds
one point to that room's score total. -/
theorem C2_submission_ignores_current_question (rooms : Registry)
    (sockId roomId : String) (qi : Int) (answer : String)
    (room : RoomData) (players : List Player) (q : Question)
    (timers : List Timer) (emitted : List Emission)
    (hroom : rooms.get roomId = some room)
    (hp : room.players = some players)
    (hfound : (players.find? (fun x => x.id == sockId)).isSome)
    (hq : getQ room.questions qi = some q)
    (hca : q.correctAnswer = answer) :
    ∃ rooms',
      step { rooms := rooms, timers := timers, emitted := emitted }
          (.msg (.submitAnswer sockId roomId qi answer))
        = some { rooms := rooms', timers := timers, emitted := emitted } ∧
      roomScoreSum rooms' roomId = roomScoreSum rooms roomId + 1 := by
  obtain ⟨p, hfind⟩ := Option.isSome_iff_exists.mp hfound
  have h1 : submitAnswer rooms sockId roomId qi answer
      = some (rooms.set roomId { room with players := some (scoreFirst sockId players) }) := by
    simp [submitAnswer, hroom, hp, hfind, hq, hca]
  refine ⟨rooms.set roomId { room with players := some (scoreFirst sockId players) }, ?_, ?_⟩
  · simp [step, h1]
  · rw [roomScoreSum_set]
    simp [roomScoreSum, hroom, hp,
      scoreSum_scoreFirst_found sockId players (by simp [hfind])]

/-- Witness for C2: with question 0 current (its broadcast is the whole
emission history and its countdown is live), the submission for index 1
still scores. -/
theorem C2_submission_ignores_current_question_witness :
    ∃ rooms',
      step { rooms := regTwoQJoined,
             timers := [{ roomId := "R", nextIndex := 1, timeLeft := 20 }],
             emitted := [.newQuestion "R" "Q1" ["A", "B"] 0 2 20] }
          (.msg (.submitAnswer "s1" "R" 1 "B"))
        = some { rooms := rooms',
                 timers := [{ roomId := "R", nextIndex := 1, timeLeft := 20 }],
                 emitted := [.newQuestion "R" "Q1" ["A", "B"] 0 2 20] } ∧
      roomScoreSum rooms' "R" = roomScoreSum regTwoQJoined "R" + 1 :=
  C2_submission_ignores_current_question regTwoQJoined "s1" "R" 1 "B"
    { roomTwoQ with players := some [p1] } [p1] qB _ _
    (by decide) (by decide) (by decide) (by decide) (by decide)

/-- C4 counterexample: room "R" (no questions, "s1" joined) receives
start_quiz twice; each one ends the quiz, so quiz_ended is broadcast to the
room twice, not exactly once. -/
theorem C4_counterexample :
    (run (initState regNoQ)
        [.msg (.joinRoom "s1" "R" "alice"), .msg (.startQuiz "R"),
         .msg (.startQuiz "R")]).map (fun s => quizEndedCount s.emitted "R")
      = some 2 := by
  decide

/-- C4 amended: whenever the quiz ends, the emitted leaderboard is the
roster at that moment sorted descending by score, with entries of equal
score kept in roster order (the ECMAScript sort is stable); but quiz_ended
is not exactly-once per room: every start_quiz (or countdown chain) that
reaches the end of the question list broadcasts it again. -/
theorem C4_leaderboard_sorted_stable (rooms : Registry) (roomId : String)
    (index : Nat) (room : RoomData) (players : List Player)
    (hroom : rooms.get roomId = some room)
    (hp : room.players = some players)
    (hend : ¬ index < room.questions.length) :
    ∃ lb rooms',
      startQuestion rooms roomId index = some (rooms', none, [.quizEnded roomId lb]) ∧
      lb.Perm players ∧
      List.Sorted scoreGE lb ∧
      ∀ n : Nat, lb.filter (fun x => x.score == n) = players.filter (fun x => x.score == n) := by
  refine ⟨sortDesc players, rooms.set roomId { room with players := some (sortDesc players) },
    ?_, sortDesc_perm players, sortDesc_sorted players, fun n => sortDesc_filter players n⟩
  simp [startQuestion, hroom, hend, hp]

/-- Witness for C4: ending the quiz of the tied-roster room; alice and bob
are tied at one point, so the leaderboard keeps alice (who joined first)
ahead of bob. -/
theorem C4_leaderboard_sorted_stable_witness :
    ∃ lb rooms',
      startQuestion regTie "R" 2 = some (rooms', none, [.quizEnded "R" lb]) ∧
      lb.Perm [pAlice, pBob] ∧
      List.Sorted scoreGE lb ∧
      ∀ n : Nat,
        lb.filter (fun x => x.score == n) = [pAlice, pBob].filter (fun x => x.score == n) :=
  C4_leaderboard_sorted_stable regTie "R" 2 { roomTwoQ with players := some [pAlice, pBob] }
    [pAlice, pBob] (by decide) (by decide) (by decide)

/-- C5 counterexample: after two start_quiz messages for the two-question
room, the server holds two live countdown timers for room "R" at once. -/
theorem C5_counterexample :
    (run (initState regTwoQ)
        [.msg (.joinRoom "s1" "R" "alice"), .msg (.startQuiz "R"),
         .msg (.startQuiz "R")]).map
      (fun s => (s.timers.filter (fun t => t.roomId == "R")).length)
      = some 2 := by
  decide

/-- C5 amended: start_quiz cancels nothing: on a room with at least one
question it appends a fresh 20-tick countdown for question index 1 while
every previously live timer, including ones for the same room, stays live;
so a repeated start_quiz leaves the room with concurrent countdowns, each
of which will advance it independently. -/
theorem C5_start_quiz_appends_timer (s : ServerState) (roomId : String)
    (room : RoomData)
    (hroom : s.rooms.get roomId = some room)
    (hq : 0 < room.questions.length) :
    ∃ s', step s (.msg (.startQuiz roomId)) = some s' ∧
      s'.timers = s.timers ++ [{ roomId := roomId, nextIndex := 1, timeLeft := 20 }] := by
  have hstart : startQuestion s.rooms roomId 0
      = some (s.rooms, some { roomId := roomId, nextIndex := 1, timeLeft := 20 },
          [.newQuestion roomId (room.questions.get ⟨0, hq⟩).question
            (room.questions.get ⟨0, hq⟩).options 0 room.questions.length 20]) := by
    simp [startQuestion, hroom, hq]
  refine ⟨{ rooms := s.rooms,
            timers := s.timers ++ [{ roomId := roomId, nextIndex := 1, timeLeft := 20 }],
            emitted := s.emitted ++ [.quizStarted roomId]
              ++ [.newQuestion roomId (room.questions.get ⟨0, hq⟩).question
                    (room.questions.get ⟨0, hq⟩).options 0 room.questions.length 20] },
    ?_, ?_⟩
  · simp [step, hroom, hstart]
  · simp

/-- Witness for C5: a second start_quiz while question 1's countdown is
already live leaves room "R" with two concurrent countdowns. -/
theorem C5_start_quiz_appends_timer_witness :
    ∃ s', step { rooms := regTwoQ,
                 timers := [{ roomId := "R", nextIndex := 1, timeLeft := 20 }],
                 emitted := [] }
          (.msg (.startQuiz "R")) = some s' ∧
      s'.timers = [{ roomId := "R", nextIndex := 1, timeLeft := 20 }]
        ++ [{ roomId := "R", nextIndex := 1, timeLeft := 20 }] :=
  C5_start_quiz_appends_timer _ "R" roomTwoQ (by decide) (by decide)

/-- C8 counterexample: room "R" has an empty question list and nobody ever
joined, so room.players is undefined; start_quiz then throws a TypeError
inside startQuestion (room.players.sort of undefined) instead of emitting
quiz_ended with an empty leaderboard. -/
theorem C8_counterexample :
    Registry.get regNoQ "R" = some roomNoQ ∧
    roomNoQ.questions = [] ∧
    run (initState regNoQ) [.msg (.startQuiz "R")] = none := by
  decide

/-- C8 amended: provided at least one player has joined (so the roster is
initialised), start_quiz on a room with an empty question list immediately
broadcasts quiz_started followed by quiz_ended carrying the sorted roster,
schedules no countdown, and emits no new_question; if no player ever
joined, the handler instead throws on the undefined roster. -/
theorem C8_empty_quiz_immediate_end (s : ServerState) (roomId : String)
    (room : RoomData) (players : List Player)
    (hroom : s.rooms.get roomId = some room)
    (hq : room.questions = [])
    (hp : room.players = some players) :
    ∃ s', step s (.msg (.startQuiz roomId)) = some s' ∧
      s'.emitted = s.emitted ++ [.quizStarted roomId, .quizEnded roomId (sortDesc players)] ∧
      s'.timers = s.timers ∧
      newQuestionIndices s'.emitted roomId = newQuestionIndices s.emitted roomId := by
  have hlen : ¬ (0 : Nat) < room.questions.length := by simp [hq]
  have hstart : startQuestion s.rooms roomId 0
      = some (s.rooms.set roomId { room with players := some (sortDesc players) }, none,
          [.quizEnded roomId (sortDesc players)]) := by
    simp [startQuestion, hroom, hlen, hp]
  refine ⟨{ rooms := s.rooms.set roomId { room with players := some (sortDesc players) },
            timers := s.timers,
            emitted := s.emitted ++ [.quizStarted roomId]
              ++ [.quizEnded roomId (sortDesc players)] }, ?_, ?_, ?_, ?_⟩
  · simp [step, hroom, hstart]
  · simp
  · simp
  · simp [newQuestionIndices, List.filterMap_append]

/-- startQuestion never changes any room's score total: it either leaves
the room table alone (question broadcast) or replaces a roster by a
permutation of itself (the in-place sort at quiz end). -/
theorem roomScoreSum_startQuestion (rooms : Registry) (rid : String) (index : Nat)
    (rooms' : Registry) (t : Option Timer) (ems : List Emission) (j : String)
    (h : startQuestion rooms rid index = some (rooms', t, ems)) :
    roomScoreSum rooms' j = roomScoreSum rooms j := by
  cases hr : rooms.get rid with
  | none => simp [startQuestion, hr] at h
  | some room =>
      by_cases hlen : index < room.questions.length
      · simp only [startQuestion, hr, dif_pos hlen, Option.some.injEq, Prod.mk.injEq] at h
        obtain ⟨rfl, -⟩ := h
        rfl
      · cases hp : room.players with
        | none => simp [startQuestion, hr, dif_neg hlen, hp] at h
        | some players =>
            simp only [startQuestion, hr, dif_neg hlen, hp, Option.some.injEq,
              Prod.mk.injEq] at h
            obtain ⟨rfl, -⟩ := h
            rw [roomScoreSum_set]
            by_cases hj : rid = j
            · subst hj
              simp [roomScoreSum, hr, hp, scoreSum_sortDesc]
            · simp [hj]

/-- join_room never changes any room's score total: the appended roster
entry carries score 0. -/
theorem roomScoreSum_joinRoom (rooms : Registry) (sockId rid username : String)
    (j : String) :
    roomScoreSum (joinRoom rooms sockId rid username).1 j = roomScoreSum rooms j := by
  cases hr : rooms.get rid with
  | none => simp [joinRoom, hr]
  | some room =>
      simp only [joinRoom, hr]
      rw [roomScoreSum_set]
      by_cases hj : rid = j
      · subst hj
        simp [roomScoreSum, hr, scoreSum]
      · simp [hj]

/-- submit_answer never lowers any room's score total. -/
theorem roomScoreSum_submitAnswer (rooms : Registry) (sockId rid : String)
    (qi : Int) (answer : String) (rooms' : Registry) (j : String)
    (h : submitAnswer rooms sockId rid qi answer = some rooms') :
    roomScoreSum rooms j ≤ roomScoreSum rooms' j := by
  cases hr : rooms.get rid with
  | none =>
      simp only [submitAnswer, hr, Option.some.injEq] at h
      exact le_of_eq (h ▸ rfl)
  | some room =>
      cases hp : room.players with
      | none => simp [submitAnswer, hr, hp] at h
      | some players =>
          cases hf : players.find? (fun p => p.id == sockId) with
          | none =>
              simp only [submitAnswer, hr, hp, hf, Option.some.injEq] at h
              exact le_of_eq (h ▸ rfl)
          | some p0 =>
              cases hq : getQ room.questions qi with
              | none =>
                  simp only [submitAnswer, hr, hp, hf, hq, Option.some.injEq] at h
                  exact le_of_eq (h ▸ rfl)
              | some q =>
                  by_cases hca : q.correctAnswer == answer
                  · simp only [submitAnswer, hr, hp, hf, hq, if_pos hca,
                      Option.some.injEq] at h
                    subst h
                    rw [roomScoreSum_set]
                    by_cases hj : rid = j
                    · subst hj
                      simp only [if_pos rfl]
                      simp [roomScoreSum, hr, hp]
                      exact scoreSum_scoreFirst_le sockId players
                    · simp [hj]
                  · simp only [submitAnswer, hr, hp, hf, hq, if_neg hca,
                      Option.some.injEq] at h
                    exact le_of_eq (h ▸ rfl)

/-- C3 counterexample: the one-question room's player reaches score 2 after
two correct submissions of the same question, violating the claimed bound
score ≤ questions.length = 1. -/
theorem C3_counterexample :
    roomOneQ.questions.length = 1 ∧
    ((submitAnswer regOneQ "s1" "R" 0 "A").bind
        (fun r => (submitAnswer r "s1" "R" 0 "A").bind
          (fun r2 => firstScore r2 "R" "s1"))) = some 2 := by
  decide

/-- C3 amended: scores are naturals (so 0 ≤ score always holds) and no
operation — join, start, submit_answer, or a timer tick/advance — ever
lowers a room's score total; but the claimed upper bound
score ≤ questions.length fails, because repeat correct submissions keep
incrementing (see the counterexample). -/
theorem C3_score_total_monotone (s : ServerState) (e : Event) (s' : ServerState)
    (h : step s e = some s') (roomId : String) :
    roomScoreSum s.rooms roomId ≤ roomScoreSum s'.rooms roomId := by
  cases e with
  | msg m =>
      cases m with
      | joinRoom sockId rid username =>
          simp only [step] at h
          obtain rfl := Option.some.inj h
          exact le_of_eq (roomScoreSum_joinRoom s.rooms sockId rid username roomId).symm
      | startQuiz rid =>
          cases hr : s.rooms.get rid with
          | none =>
              simp only [step, hr] at h
              obtain rfl := Option.some.inj h
              exact le_refl _
          | some room =>
              cases hsq : startQuestion s.rooms rid 0 with
              | none => simp [step, hr, hsq] at h
              | some res =>
                  obtain ⟨rooms', t?, ems⟩ := res
                  simp only [step, hr, hsq] at h
                  obtain rfl := Option.some.inj h
                  exact le_of_eq
                    (roomScoreSum_startQuestion s.rooms rid 0 rooms' t? ems roomId hsq).symm
      | submitAnswer sockId rid qi answer =>
          cases hsa : submitAnswer s.rooms sockId rid qi answer with
          | none => simp [step, hsa] at h
          | some rooms' =>
              simp only [step, hsa, Option.map_some'] at h
              obtain rfl := Option.some.inj h
              exact roomScoreSum_submitAnswer s.rooms sockId rid qi answer rooms' roomId hsa
  | tick i =>
      cases ht : s.timers[i]? with
      | none =>
          simp only [step, ht] at h
          obtain rfl := Option.some.inj h
          exact le_refl _
      | some t =>
          by_cases hl : t.timeLeft ≤ 1
          · cases hsq : startQuestion s.rooms t.roomId t.nextIndex with
            | none => simp [step, ht, hl, hsq] at h
            | some res =>
                obtain ⟨rooms', t?, ems⟩ := res
                simp only [step, ht, if_pos hl, hsq] at h
                obtain rfl := Option.some.inj h
                exact le_of_eq
                  (roomScoreSum_startQuestion s.rooms t.roomId t.nextIndex rooms' t? ems
                    roomId hsq).symm
          · simp only [step, ht, if_neg hl] at h
            obtain rfl := Option.some.inj h
            exact le_refl _

/-- Witness for C3: a scored submission on the one-question room raises the
room total, so the step inequality holds there. -/
theorem C3_score_total_monotone_witness :
    step (initState regOneQ) (.msg (.submitAnswer "s1" "R" 0 "A"))
      = some { rooms := [("R", { roomOneQ with players := some [pAlice] })],
               timers := [], emitted := [] } ∧
    roomScoreSum (initState regOneQ).rooms "R"
      ≤ roomScoreSum [("R", { roomOneQ with players := some [pAlice] })] "R" :=
  ⟨by decide,
   C3_score_total_monotone (initState regOneQ) (.msg (.submitAnswer "s1" "R" 0 "A"))
     { rooms := [("R", { roomOneQ with players := some [pAlice] })],
       timers := [], emitted := [] } (by decide) "R"⟩

/-- Witness for C8: starting the empty-question room after "s1" joined. -/
theorem C8_empty_quiz_immediate_end_witness :
    ∃ s', step (initState regNoQJoined) (.msg (.startQuiz "R")) = some s' ∧
      s'.emitted = (initState regNoQJoined).emitted
        ++ [.quizStarted "R", .quizEnded "R" (sortDesc [p1])] ∧
      s'.timers = (initState regNoQJoined).timers ∧
      newQuestionIndices s'.emitted "R"
        = newQuestionIndices (initState regNoQJoined).emitted "R" :=
  C8_empty_quiz_immediate_end (initState regNoQJoined) "R"
    { roomNoQ with players := some [p1] } [p1] (by decide) (by decide) (by decide)

end Quiz
